import Mathlib

/-!
Formal model of the AST-rewriting engine in src/code_optimizer.py.

The rewriter is the class CodeOptimizer (a subclass of ast.NodeTransformer,
lines 21-60) together with the driver optimize_code (lines 96-114).  The
embedding below models the Python ast node kinds that the optimizer and the
claims exercise (Name, Constant, Call, Attribute, ListComp expressions;
expression statements, For, FunctionDef and If statements; Module), the
NodeTransformer dispatch (a node kind with a dedicated visit method is
handled by that method, every other node kind is traversed generically,
children first, with list results spliced into statement lists), and the
runtime fault raised by an attribute access on a node that lacks the
attribute (AttributeError).
-/

namespace CodeOpt

/-- Expression contexts (ast.Load / ast.Store / ast.Del). -/
inductive Ctx where
  | load
  | store
  | del
deriving DecidableEq, Repr

/-- Constant payloads carried by ast.Constant nodes (the subset used here). -/
inductive Lit where
  | str (s : String)
  | int (n : Int)
deriving DecidableEq, Repr

mutual
/-- Python expression nodes: the ast node kinds the optimizer touches or
builds.  Call carries positional arguments and keyword arguments exactly as
ast.Call does. -/
inductive Expr where
  | name (id : String) (ctx : Ctx)
  | constant (value : Lit)
  | call (func : Expr) (args : List Expr) (keywords : List Keyword)
  | attribute (value : Expr) (attr : String) (ctx : Ctx)
  | listComp (elt : Expr) (generators : List Comp)

/-- ast.keyword: an optional argument name and a value. -/
inductive Keyword where
  | mk (arg : Option String) (value : Expr)

/-- ast.comprehension: target, iterable and filter clauses. -/
inductive Comp where
  | mk (target : Expr) (iter : Expr) (ifs : List Expr)
end

/-- Formal parameters of a FunctionDef (ast.arguments).  The optimizer never
reads or writes them, so only the parameter names are modelled. -/
structure Arguments where
  params : List String
deriving DecidableEq, Repr

/-- Python statement nodes: the kinds the optimizer touches (For via
visit_For, FunctionDef via visit_FunctionDef, expression statements as the
wrapper both rules look through) plus If as a representative statement kind
with no dedicated visit method, so that generic traversal is modelled. -/
inductive Stmt where
  | exprStmt (value : Expr)
  | forStmt (target : Expr) (iter : Expr) (body : List Stmt) (orelse : List Stmt)
  | functionDef (name : String) (args : Arguments) (body : List Stmt)
      (decorator_list : List Expr)
  | ifStmt (test : Expr) (body : List Stmt) (orelse : List Stmt)

/-- ast.Module: the root node, a list of statements. -/
structure Module where
  body : List Stmt

/-- A Python runtime fault surfaced while rewriting: an attribute access on
a node object that lacks the attribute (AttributeError).  The payload is the
name of the missing attribute. -/
inductive PyError where
  | attributeError (attr : String)
deriving DecidableEq, Repr

/-- Reading the .id attribute of an expression node: only ast.Name has an
id field; on any other node kind the access raises AttributeError.  Line 36
of src/code_optimizer.py reads node.body[0].value.func.id without checking
that func is a Name, so this access can fault. -/
def Expr.getId : Expr → Except PyError String
  | .name i _ => .ok i
  | _ => .error (.attributeError "id")

/-- The replacement statement built on line 38:
ast.Expr(ast.Call(ast.Name(id="print", ctx=Load), [ast.Constant("Hello")], [])). -/
def helloPrint : Stmt :=
  .exprStmt (.call (.name "print" .load) [.constant (.str "Hello")] [])

/-- CodeOptimizer.visit_For (lines 24-39).  The guard checks, in order:
target is a Name, iter is a Call, iter.func is a Name with id "range", the
body has exactly one statement and it is an expression statement.  Then, if
that expression is a Call, line 36 reads its .func.id (which faults when the
callee is not a Name); when the id is "print" the whole loop is replaced by
the list [helloPrint], spliced into the parent statement list.  In every
other case the node is returned unchanged; the method never calls
generic_visit, so the loop body and else clause are not traversed. -/
def visit_For (target iter : Expr) (body orelse : List Stmt) :
    Except PyError (List Stmt) :=
  match target, iter, body with
  | .name _ _, .call (.name "range" _) _ _, [.exprStmt bodyVal] =>
      match bodyVal with
      | .call callFunc _ _ =>
          match callFunc.getId with
          | .error e => .error e
          | .ok callId =>
              if callId = "print" then .ok [helloPrint]
              else .ok [.forStmt target iter body orelse]
      | _ => .ok [.forStmt target iter body orelse]
  | _, _, _ => .ok [.forStmt target iter body orelse]

/-- CodeOptimizer.visit_Call (lines 46-53): when the callee is the Name
"list" and there is exactly one positional argument which is itself a Call
whose callee is the Name "set", return that inner call (node.args[0]);
otherwise return the node unchanged.  The keyword lists of both calls are
never inspected, and the method never calls generic_visit, so the arguments
are not traversed. -/
def visit_Call (func : Expr) (args : List Expr) (keywords : List Keyword) :
    Expr :=
  match func with
  | .name fid _ =>
      if fid = "list" then
        match args with
        | [.call innerFunc innerArgs innerKws] =>
            match innerFunc with
            | .name iid ic =>
                if iid = "set" then .call (.name iid ic) innerArgs innerKws
                else .call func args keywords
            | _ => .call func args keywords
        | _ => .call func args keywords
      else .call func args keywords
  | _ => .call func args keywords

/-- CodeOptimizer.visit_FunctionDef (lines 55-60): when the name is "fib",
append ast.Name(id="lru_cache", ctx=Load) to the decorator list; the name,
parameters, body and earlier decorators are untouched and the body is not
traversed. -/
def visit_FunctionDef (name : String) (args : Arguments) (body : List Stmt)
    (decorator_list : List Expr) : Stmt :=
  if name = "fib" then
    .functionDef name args body (decorator_list ++ [.name "lru_cache" .load])
  else
    .functionDef name args body decorator_list

mutual
/-- NodeTransformer dispatch on expression nodes.  Call has the dedicated
visitor visit_Call (children not traversed); ListComp has visit_ListComp
(lines 41-44), which calls generic_visit and returns the node, i.e. plain
recursion into the element and the generators; Name, Constant and Attribute
have no visitor, so generic_visit recurses into their child nodes. -/
def visitExpr : Expr → Expr
  | .name i c => .name i c
  | .constant v => .constant v
  | .call f args kws => visit_Call f args kws
  | .attribute v a c => .attribute (visitExpr v) a c
  | .listComp elt gens => .listComp (visitExpr elt) (visitComps gens)

/-- generic_visit on an ast.comprehension node: visit target, iter and the
filter expressions. -/
def visitComp : Comp → Comp
  | .mk t i ifs => .mk (visitExpr t) (visitExpr i) (visitExprs ifs)

def visitComps : List Comp → List Comp
  | [] => []
  | c :: cs => visitComp c :: visitComps cs

def visitExprs : List Expr → List Expr
  | [] => []
  | e :: es => visitExpr e :: visitExprs es
end

mutual
/-- NodeTransformer dispatch on statement nodes.  For and FunctionDef have
dedicated visitors; expression statements and If statements are traversed
generically (children first).  A visitor may return a list of statements,
which the transformer splices into the enclosing statement list, so the
result is a list. -/
def visitStmt : Stmt → Except PyError (List Stmt)
  | .exprStmt v => .ok [.exprStmt (visitExpr v)]
  | .forStmt t i b o => visit_For t i b o
  | .functionDef n a b d => .ok [visit_FunctionDef n a b d]
  | .ifStmt t b o =>
      match visitStmts b with
      | .error e => .error e
      | .ok b2 =>
          match visitStmts o with
          | .error e => .error e
          | .ok o2 => .ok [.ifStmt (visitExpr t) b2 o2]

/-- generic_visit on a statement list: visit each statement and splice the
returned lists, preserving the order of the other statements. -/
def visitStmts : List Stmt → Except PyError (List Stmt)
  | [] => .ok []
  | s :: ss =>
      match visitStmt s with
      | .error e => .error e
      | .ok ts =>
          match visitStmts ss with
          | .error e => .error e
          | .ok rest => .ok (ts ++ rest)
end

/-- One whole pass of the engine, CodeOptimizer().visit(tree) on a Module
(line 104): Module has no dedicated visitor, so generic_visit rewrites its
statement list. -/
def rewriteModule (m : Module) : Except PyError Module :=
  match visitStmts m.body with
  | .error e => .error e
  | .ok b => .ok ⟨b⟩

/-- The failure outcomes of optimize_code (lines 96-114): SyntaxError or
ValueError raised while parsing is caught on line 113 and reported, so the
file is not rewritten; any fault escaping the rewrite itself (an
AttributeError is not caught by the except clause on line 113) also leaves
the file untouched, because the file is only opened for writing on line 108,
after the whole rewrite and unparse have succeeded. -/
inductive Failure where
  | parseError (msg : String)
  | malformedTree (e : PyError)
deriving DecidableEq, Repr

/-- The tree-level core of optimize_code (lines 96-114): parsing is an
external collaborator, so its outcome is the argument; a parse failure is
the caught SyntaxError / ValueError, and a rewrite fault is the AttributeError
escaping CodeOptimizer().visit. -/
def optimize_code (parsed : Except String Module) : Except Failure Module :=
  match parsed with
  | .error msg => .error (.parseError msg)
  | .ok tree =>
      match rewriteModule tree with
      | .error e => .error (.malformedTree e)
      | .ok t => .ok t

/-- The file contents after a rewrite attempt: the file is opened for
writing (line 108) only after the rewrite succeeded, so on any failure the
original contents remain.  serialize stands for ast.unparse (a boundary
collaborator). -/
def writeAfterRewrite {α : Type} (rw : Except PyError α) (orig : String)
    (serialize : α → String) : String :=
  match rw with
  | .error _ => orig
  | .ok t => serialize t

/-- The file contents after optimize_code ran on a file holding orig:
unchanged unless the whole pipeline succeeded, in which case the rewritten
tree is serialized and written. -/
def fileAfter (parsed : Except String Module) (orig : String)
    (serialize : Module → String) : String :=
  match optimize_code parsed with
  | .error _ => orig
  | .ok t => serialize t

/-- A structurally malformed ast.For node object: Python ast nodes are
plain objects, so a hand-built node can lack any of its fields; an access to
a missing field raises AttributeError.  Used to model Scenario E (a Loop
node missing its iterable). -/
structure RawFor where
  target : Option Expr
  iter : Option Expr
  body : Option (List Stmt)
  orelse : Option (List Stmt)

/-- Attribute access on a possibly missing field of a hand-built node:
returns the value, or raises AttributeError naming the field. -/
def getAttrField {α : Type} (field : Option α) (name : String) :
    Except PyError α :=
  match field with
  | some v => .ok v
  | none => .error (.attributeError name)

/-- CodeOptimizer.visit_For (lines 24-39) run on a possibly malformed For
node: field accesses happen in the short-circuit order of the guard on
lines 26-33 (target first, then iter, then body), so a missing field faults
only if every earlier conjunct of the precondition held.  The result is
either the spliced replacement list or the unchanged node. -/
def visit_For_raw (node : RawFor) : Except PyError (List Stmt ⊕ RawFor) :=
  match getAttrField node.target "target" with
  | .error e => .error e
  | .ok tgt =>
      match tgt with
      | .name _ _ =>
          match getAttrField node.iter "iter" with
          | .error e => .error e
          | .ok it =>
              match it with
              | .call (.name rid _) _ _ =>
                  if rid = "range" then
                    match getAttrField node.body "body" with
                    | .error e => .error e
                    | .ok b =>
                        match b with
                        | [.exprStmt bodyVal] =>
                            match bodyVal with
                            | .call callFunc _ _ =>
                                match callFunc.getId with
                                | .error e => .error e
                                | .ok callId =>
                                    if callId = "print" then .ok (.inl [helloPrint])
                                    else .ok (.inr node)
                            | _ => .ok (.inr node)
                        | _ => .ok (.inr node)
                  else .ok (.inr node)
              | _ => .ok (.inr node)
      | _ => .ok (.inr node)

mutual
/-- No statement of the tree is a function declaration named fib (checked
recursively through every statement body). -/
def noFibStmt : Stmt → Bool
  | .exprStmt _ => true
  | .forStmt _ _ b o => noFibStmts b && noFibStmts o
  | .functionDef n _ b _ => !(n == "fib") && noFibStmts b
  | .ifStmt _ b o => noFibStmts b && noFibStmts o

/-- noFibStmt on every statement of a list. -/
def noFibStmts : List Stmt → Bool
  | [] => true
  | s :: ss => noFibStmt s && noFibStmts ss
end

/-- noFibStmt on every statement of a module. -/
def noFibModule (m : Module) : Bool := noFibStmts m.body

/-! Helper lemmas about the traversal. -/

/-- visit_Call either leaves the call unchanged or returns the inner
set-construction call; in both cases the arguments are reproduced verbatim,
never traversed. -/
theorem visit_Call_eq_or (f : Expr) (a : List Expr) (k : List Keyword) :
    visit_Call f a k = .call f a k ∨
    ∃ ic ia ik, a = [.call (.name "set" ic) ia ik] ∧
      visit_Call f a k = .call (.name "set" ic) ia ik := by
  unfold visit_Call
  repeat' split
  all_goals try (left; rfl)
  rename_i hset
  subst hset
  right
  exact ⟨_, _, _, rfl, rfl⟩

/-- Re-visiting the result of visit_Call changes nothing. -/
theorem visit_Call_stable (f : Expr) (a : List Expr) (k : List Keyword) :
    visitExpr (visit_Call f a k) = visit_Call f a k := by
  rcases visit_Call_eq_or f a k with h | ⟨ic, ia, ik, _, h⟩
  · rw [h]
    calc visitExpr (.call f a k) = visit_Call f a k := rfl
    _ = .call f a k := h
  · rw [h]
    rfl

mutual
/-- One traversal pass is idempotent on expressions. -/
theorem visitExpr_idem : ∀ e : Expr, visitExpr (visitExpr e) = visitExpr e
  | .name _ _ => rfl
  | .constant _ => rfl
  | .call f a k => visit_Call_stable f a k
  | .attribute v a c => by
      show Expr.attribute (visitExpr (visitExpr v)) a c
        = .attribute (visitExpr v) a c
      rw [visitExpr_idem v]
  | .listComp elt gens => by
      show Expr.listComp (visitExpr (visitExpr elt)) (visitComps (visitComps gens))
        = .listComp (visitExpr elt) (visitComps gens)
      rw [visitExpr_idem elt, visitComps_idem gens]

theorem visitComp_idem : ∀ c : Comp, visitComp (visitComp c) = visitComp c
  | .mk t i ifs => by
      show Comp.mk (visitExpr (visitExpr t)) (visitExpr (visitExpr i))
        (visitExprs (visitExprs ifs)) = .mk (visitExpr t) (visitExpr i) (visitExprs ifs)
      rw [visitExpr_idem t, visitExpr_idem i, visitExprs_idem ifs]

theorem visitComps_idem : ∀ cs : List Comp, visitComps (visitComps cs) = visitComps cs
  | [] => rfl
  | c :: cs => by
      show visitComp (visitComp c) :: visitComps (visitComps cs)
        = visitComp c :: visitComps cs
      rw [visitComp_idem c, visitComps_idem cs]

theorem visitExprs_idem : ∀ es : List Expr, visitExprs (visitExprs es) = visitExprs es
  | [] => rfl
  | e :: es => by
      show visitExpr (visitExpr e) :: visitExprs (visitExprs es)
        = visitExpr e :: visitExprs es
      rw [visitExpr_idem e, visitExprs_idem es]
end

/-- When visit_For does not fault, it returns either the wholesale
replacement [helloPrint] or the input loop verbatim, children untouched. -/
theorem visit_For_ok_cases (t i : Expr) (b o ts : List Stmt)
    (h : visit_For t i b o = .ok ts) :
    ts = [helloPrint] ∨ ts = [.forStmt t i b o] := by
  unfold visit_For at h
  repeat' split at h
  all_goals first
    | (injection h with h2; first | exact Or.inl h2.symm | exact Or.inr h2.symm)
    | cases h

/-- Rewriting a spliced statement list rewrites the pieces independently. -/
theorem visitStmts_append (xs ys a b : List Stmt)
    (hx : visitStmts xs = .ok a) (hy : visitStmts ys = .ok b) :
    visitStmts (xs ++ ys) = .ok (a ++ b) := by
  induction xs generalizing a with
  | nil =>
      simp only [visitStmts] at hx
      injection hx with hx2
      subst hx2
      simpa using hy
  | cons s ss ih =>
      rw [List.cons_append]
      simp only [visitStmts] at hx ⊢
      cases h1 : visitStmt s with
      | error e => rw [h1] at hx; cases hx
      | ok ts =>
          rw [h1] at hx
          cases h2 : visitStmts ss with
          | error e => rw [h2] at hx; cases hx
          | ok rest =>
              rw [h2] at hx
              injection hx with hx2
              subst hx2
              rw [ih rest h2]
              simp [List.append_assoc]

mutual
/-- One traversal pass is idempotent on any statement that declares no
function named fib: re-visiting its output reproduces it.  The fib rule is
the only rule whose output a second pass changes again. -/
theorem visitStmt_idem : ∀ s : Stmt, noFibStmt s = true →
    ∀ ts, visitStmt s = .ok ts → visitStmts ts = .ok ts
  | .exprStmt v, _, ts, h => by
      simp only [visitStmt] at h
      injection h with h2
      subst h2
      show visitStmts [.exprStmt (visitExpr v)] = .ok [.exprStmt (visitExpr v)]
      simp [visitStmts, visitStmt, visitExpr_idem v]
  | .forStmt t i b o, _, ts, h => by
      rcases visit_For_ok_cases t i b o ts h with h1 | h1 <;> subst h1
      · rfl
      · show visitStmts [.forStmt t i b o] = .ok [.forStmt t i b o]
        have h3 : visit_For t i b o = .ok [.forStmt t i b o] := h
        simp [visitStmts, visitStmt, h3]
  | .functionDef n a b d, hnf, ts, h => by
      simp only [noFibStmt, Bool.and_eq_true, Bool.not_eq_true', beq_eq_false_iff_ne,
        ne_eq] at hnf
      have hn : ¬n = "fib" := hnf.1
      simp only [visitStmt, visit_FunctionDef, if_neg hn] at h
      injection h with h2
      subst h2
      show visitStmts [.functionDef n a b d] = .ok [.functionDef n a b d]
      simp [visitStmts, visitStmt, visit_FunctionDef, if_neg hn]
  | .ifStmt t b o, hnf, ts, h => by
      simp only [noFibStmt, Bool.and_eq_true] at hnf
      simp only [visitStmt] at h
      cases hb2 : visitStmts b with
      | error e => rw [hb2] at h; simp at h
      | ok b2 =>
          rw [hb2] at h
          cases ho2 : visitStmts o with
          | error e => rw [ho2] at h; simp at h
          | ok o2 =>
              rw [ho2] at h
              injection h with h2
              subst h2
              have ihb := visitStmts_idem b hnf.1 b2 hb2
              have iho := visitStmts_idem o hnf.2 o2 ho2
              show visitStmts [.ifStmt (visitExpr t) b2 o2]
                = .ok [.ifStmt (visitExpr t) b2 o2]
              simp [visitStmts, visitStmt, ihb, iho, visitExpr_idem t]

theorem visitStmts_idem : ∀ ss : List Stmt, noFibStmts ss = true →
    ∀ ts, visitStmts ss = .ok ts → visitStmts ts = .ok ts
  | [], _, ts, h => by
      simp only [visitStmts] at h
      injection h with h2
      subst h2
      rfl
  | s :: ss, hnf, ts, h => by
      simp only [noFibStmts, Bool.and_eq_true] at hnf
      simp only [visitStmts] at h
      cases hts1 : visitStmt s with
      | error e => rw [hts1] at h; simp at h
      | ok ts1 =>
          rw [hts1] at h
          cases hts2 : visitStmts ss with
          | error e => rw [hts2] at h; simp at h
          | ok ts2 =>
              rw [hts2] at h
              injection h with h2
              subst h2
              exact visitStmts_append ts1 ts2 ts1 ts2
                (visitStmt_idem s hnf.1 ts1 hts1) (visitStmts_idem ss hnf.2 ts2 hts2)
end

/-! The claims. -/

/-- Claim C1, counterexample: the engine is not idempotent.  On a module
declaring a function named fib, the first pass appends the lru_cache
decorator and a second pass appends it again, so rewrite(rewrite(t))
differs from rewrite(t). -/
theorem rewrite_twice_adds_second_decorator :
    rewriteModule ⟨[.functionDef "fib" ⟨["n"]⟩ [.exprStmt (.constant (.int 0))] []]⟩
      = .ok ⟨[.functionDef "fib" ⟨["n"]⟩ [.exprStmt (.constant (.int 0))]
          [.name "lru_cache" .load]]⟩
    ∧ rewriteModule ⟨[.functionDef "fib" ⟨["n"]⟩ [.exprStmt (.constant (.int 0))]
          [.name "lru_cache" .load]]⟩
      = .ok ⟨[.functionDef "fib" ⟨["n"]⟩ [.exprStmt (.constant (.int 0))]
          [.name "lru_cache" .load, .name "lru_cache" .load]]⟩
    ∧ (⟨[.functionDef "fib" ⟨["n"]⟩ [.exprStmt (.constant (.int 0))]
          [.name "lru_cache" .load, .name "lru_cache" .load]]⟩ : Module)
      ≠ ⟨[.functionDef "fib" ⟨["n"]⟩ [.exprStmt (.constant (.int 0))]
          [.name "lru_cache" .load]]⟩ :=
  ⟨rfl, rfl, by simp⟩

/-- Claim C1, amended: for every input tree that contains no function
declaration named fib, applying the rewrite engine twice yields the same
tree as applying it once; on a tree with a function declaration named fib
that the traversal reaches, each pass appends one more memoization
decorator, so re-running the pass is not a no-op there. -/
theorem rewrite_idempotent_without_fib (m m2 : Module)
    (hnf : noFibModule m = true) (h : rewriteModule m = .ok m2) :
    rewriteModule m2 = .ok m2 := by
  unfold rewriteModule at h ⊢
  cases hb : visitStmts m.body with
  | error e => rw [hb] at h; simp at h
  | ok b =>
      rw [hb] at h
      injection h with h2
      subst h2
      have hidem := visitStmts_idem m.body hnf b hb
      simp [hidem]

/-- Claim C1 witness: a module of one plain expression statement satisfies
the hypotheses and the engine is a fixed point on it. -/
theorem rewrite_idempotent_without_fib_witness :
    rewriteModule ⟨[.exprStmt (.name "x" .load)]⟩
      = .ok ⟨[.exprStmt (.name "x" .load)]⟩ :=
  rewrite_idempotent_without_fib ⟨[.exprStmt (.name "x" .load)]⟩
    ⟨[.exprStmt (.name "x" .load)]⟩ rfl rfl

/-- Claim C2, counterexample: a For loop matching the range-loop rule that
sits inside a FunctionDef body is NOT rewritten during the pass, because
visit_FunctionDef returns without visiting children; the whole module comes
back unchanged, with the loop still in the function body and different from
the replacement statement the rule would produce. -/
theorem nested_matching_loop_not_rewritten :
    rewriteModule ⟨[.functionDef "g" ⟨[]⟩
        [.forStmt (.name "i" .store) (.call (.name "range" .load) [.constant (.int 3)] [])
          [.exprStmt (.call (.name "print" .load) [.name "i" .load] [])] []] []]⟩
      = .ok ⟨[.functionDef "g" ⟨[]⟩
        [.forStmt (.name "i" .store) (.call (.name "range" .load) [.constant (.int 3)] [])
          [.exprStmt (.call (.name "print" .load) [.name "i" .load] [])] []] []]⟩
    ∧ ([.forStmt (.name "i" .store) (.call (.name "range" .load) [.constant (.int 3)] [])
          [.exprStmt (.call (.name "print" .load) [.name "i" .load] [])] []] : List Stmt)
      ≠ [helloPrint] :=
  ⟨rfl, by simp [helloPrint]⟩

/-- Claim C2, amended: children are rewritten before their parent only at
node kinds traversed generically; the three dedicated visitors do not
recurse, and reproduce the children verbatim: visit_FunctionDef returns the
body and parameters unchanged (possibly extending the decorator list),
visit_For either replaces the whole loop or returns it verbatim, and
visit_Call returns either the unchanged call or its first argument, so a
pattern nested inside a loop body, a call argument list or a function body
is not rewritten during the pass. -/
theorem dedicated_visitors_no_recursion :
    (∀ n a body decs, visitStmt (.functionDef n a body decs)
        = .ok [.functionDef n a body
            (if n = "fib" then decs ++ [.name "lru_cache" .load] else decs)])
    ∧ (∀ t i body orelse ts, visit_For t i body orelse = .ok ts →
          ts = [helloPrint] ∨ ts = [.forStmt t i body orelse])
    ∧ (∀ f args kws, visitExpr (.call f args kws) = .call f args kws
        ∨ ∃ ic ia ik, args = [.call (.name "set" ic) ia ik]
            ∧ visitExpr (.call f args kws) = .call (.name "set" ic) ia ik) := by
  refine ⟨?_, ?_, ?_⟩
  · intro n a body decs
    by_cases hn : n = "fib" <;> simp [visitStmt, visit_FunctionDef, hn]
  · exact fun t i body orelse ts h => visit_For_ok_cases t i body orelse ts h
  · exact fun f args kws => visit_Call_eq_or f args kws

/-- Claim C2 witness: the For clause of the theorem applied to a concrete
matching loop, whose replacement is the helloPrint statement. -/
theorem dedicated_visitors_no_recursion_witness :
    ([helloPrint] = [helloPrint]
      ∨ [helloPrint] = [Stmt.forStmt (.name "i" .store)
          (.call (.name "range" .load) [] [])
          [.exprStmt (.call (.name "print" .load) [] [])] []]) :=
  dedicated_visitors_no_recursion.2.1 (.name "i" .store)
    (.call (.name "range" .load) [] [])
    [.exprStmt (.call (.name "print" .load) [] [])] [] [helloPrint] rfl

/-- Claim C3, counterexample: the redundant-set-wrapping rule DOES fire on
list(set(values), key=k): visit_Call never reads the keyword list, so the
call is rewritten to set(values), dropping the keyword argument, instead of
being left unchanged. -/
theorem keyword_argument_call_rewritten :
    visitExpr (.call (.name "list" .load)
        [.call (.name "set" .load) [.name "values" .load] []]
        [.mk (some "key") (.name "k" .load)])
      = .call (.name "set" .load) [.name "values" .load] []
    ∧ (Expr.call (.name "set" .load) [.name "values" .load] [])
      ≠ .call (.name "list" .load)
          [.call (.name "set" .load) [.name "values" .load] []]
          [.mk (some "key") (.name "k" .load)] :=
  ⟨rfl, by simp⟩

/-- Claim C3, amended: keyword arguments do not disqualify the match.  For
every Call whose callee is the name list with one positional argument that
is itself a call to the name set, the rule fires whatever keyword arguments
either call carries, returning the inner set call (and thereby discarding
the outer keywords). -/
theorem keywords_do_not_disqualify (lc sc : Ctx) (setArgs : List Expr)
    (setKws outKws : List Keyword) :
    visitExpr (.call (.name "list" lc) [.call (.name "set" sc) setArgs setKws] outKws)
      = .call (.name "set" sc) setArgs setKws := rfl

/-- Claim C4: the claim is right and the code is wrong.  On a For loop over
range(...) whose single-statement body calls a non-simple-name callee (here
the attribute call obj.m(i)), line 36 reads .func.id without checking that
the callee is a Name, so evaluating the precondition raises AttributeError
instead of leaving the node unchanged, and the error is not caught by the
except clause of optimize_code (which catches only SyntaxError and
ValueError). -/
theorem attribute_callee_precondition_faults :
    visitStmt (.forStmt (.name "i" .store)
        (.call (.name "range" .load) [.constant (.int 3)] [])
        [.exprStmt (.call (.attribute (.name "obj" .load) "m" .load) [.name "i" .load] [])]
        [])
      = .error (.attributeError "id")
    ∧ optimize_code (.ok ⟨[.forStmt (.name "i" .store)
        (.call (.name "range" .load) [.constant (.int 3)] [])
        [.exprStmt (.call (.attribute (.name "obj" .load) "m" .load) [.name "i" .load] [])]
        []]⟩)
      = .error (.malformedTree (.attributeError "id")) :=
  ⟨rfl, rfl⟩

/-- Claim C5: every For loop whose target is a simple name, whose iterable
is a call to the name range, and whose body is exactly one expression
statement wrapping a call to the name print is replaced by the single
statement print with the fixed string Hello as argument, independently of
the range bounds, the original call arguments, and the else clause. -/
theorem range_print_loop_replaced (tid : String) (tc rc pc : Ctx)
    (rangeArgs : List Expr) (rangeKws : List Keyword)
    (printArgs : List Expr) (printKws : List Keyword) (orelse : List Stmt) :
    visitStmt (.forStmt (.name tid tc) (.call (.name "range" rc) rangeArgs rangeKws)
        [.exprStmt (.call (.name "print" pc) printArgs printKws)] orelse)
      = .ok [helloPrint] := rfl

/-- Claim C6: every Call to the name list with exactly one positional
argument and no keyword arguments, whose argument is itself a Call to the
name set, rewrites to that inner set call, dropping the outer wrapping. -/
theorem list_set_call_collapsed (lc sc : Ctx) (setArgs : List Expr)
    (setKws : List Keyword) :
    visitExpr (.call (.name "list" lc) [.call (.name "set" sc) setArgs setKws] [])
      = .call (.name "set" sc) setArgs setKws := rfl

/-- Claim C7: every function declaration named fib is returned with exactly
the lru_cache decorator reference appended at the end of its decorator
list; name, parameter list, body and pre-existing decorators are
unchanged. -/
theorem fib_decorator_appended (a : Arguments) (body : List Stmt)
    (decs : List Expr) :
    visitStmt (.functionDef "fib" a body decs)
      = .ok [.functionDef "fib" a body (decs ++ [.name "lru_cache" .load])] := rfl

/-- Claim C8: when the input fails to parse, optimize_code surfaces the
parse failure and the file keeps its original contents; more generally, any
failure of the pipeline leaves the original contents in place, because the
file is only written after the whole rewrite succeeded. -/
theorem failure_leaves_file_untouched (parsed : Except String Module)
    (orig : String) (serialize : Module → String) :
    (∀ msg, parsed = .error msg →
        optimize_code parsed = .error (.parseError msg)
        ∧ fileAfter parsed orig serialize = orig)
    ∧ (∀ f, optimize_code parsed = .error f →
        fileAfter parsed orig serialize = orig) := by
  constructor
  · intro msg hmsg
    subst hmsg
    exact ⟨rfl, rfl⟩
  · intro f hf
    unfold fileAfter
    rw [hf]

/-- Claim C8 witness: a concrete parse failure leaves the file contents
unchanged. -/
theorem failure_leaves_file_untouched_witness :
    optimize_code (Except.error "bad") = .error (.parseError "bad")
    ∧ fileAfter (Except.error "bad") "orig" (fun _ => "new") = "orig" :=
  (failure_leaves_file_untouched (Except.error "bad") "orig"
    (fun _ => "new")).1 "bad" rfl

/-- Claim C9, counterexample: a malformed For node missing its iterable
does not always make the rewrite fail.  When the target is not a simple
name, the guard short-circuits before reading the iter field, and the node
passes through the rewrite unchanged instead of failing. -/
theorem missing_iter_can_pass_through :
    visit_For_raw ⟨some (.constant (.int 0)), none, some [], some []⟩
      = .ok (.inr ⟨some (.constant (.int 0)), none, some [], some []⟩) := rfl

/-- Claim C9, amended: a malformed For node whose target is a simple name
and whose iterable field is missing makes the precondition check fault with
the attribute-access failure (AttributeError on iter, the MalformedTree
outcome), and no output is written for the file: the original contents
survive.  When an earlier precondition field already fails the check, the
missing iterable is never read and the node passes through unchanged. -/
theorem missing_iter_after_name_target_faults (x : String) (c : Ctx)
    (b o : Option (List Stmt)) (orig : String)
    (serialize : List Stmt ⊕ RawFor → String) :
    visit_For_raw ⟨some (.name x c), none, b, o⟩ = .error (.attributeError "iter")
    ∧ writeAfterRewrite (visit_For_raw ⟨some (.name x c), none, b, o⟩) orig serialize
      = orig :=
  ⟨rfl, rfl⟩

/-- Claim C10: the range-loop rule ignores the else clause.  A For loop
matching the rule is replaced by the single print statement with the fixed
Hello argument even when it carries a non-empty else block, which is
discarded from the output. -/
theorem else_clause_dropped (tid : String) (tc rc pc : Ctx)
    (rangeArgs : List Expr) (rangeKws : List Keyword)
    (printArgs : List Expr) (printKws : List Keyword) (e : Stmt)
    (es : List Stmt) :
    visitStmt (.forStmt (.name tid tc) (.call (.name "range" rc) rangeArgs rangeKws)
        [.exprStmt (.call (.name "print" pc) printArgs printKws)] (e :: es))
      = .ok [helloPrint] := rfl

end CodeOpt
